import Mathlib

/-!
Shallow embedding of the `ppg-log` segmentation engine (`src/ppg_log/metrics.py`)
and proofs about the spec's claims.

Numeric conventions: groundspeed, elapsed times and durations (Python floats /
`datetime.timedelta`) are modelled as rationals; series columns are modelled as
functions from the row index, together with an explicit row count `n`.
Python exceptions are modelled with `Except`.
-/

/-- Model of `FlightMode` from metrics.py: GROUND = 0, AIRBORNE = 1. -/
inductive FlightMode where
  | GROUND : FlightMode
  | AIRBORNE : FlightMode
deriving DecidableEq, Repr

/-- The integer value of the `IntEnum` member (GROUND = 0, AIRBORNE = 1). -/
def flightModeVal : FlightMode → ℤ
  | FlightMode.GROUND => 0
  | FlightMode.AIRBORNE => 1

/-- Model of `FlightSegment` from metrics.py; `duration` is in decimal seconds. -/
structure FlightSegment where
  start_idx : ℕ
  end_idx : ℕ
  duration : ℚ
deriving DecidableEq, Repr

/-- Model of `_classify_flight_mode` (metrics.py lines 211-216): AIRBORNE iff the
provided groundspeed is at or above the airborne threshold. -/
def _classify_flight_mode (groundspeed : ℚ) (airborne_threshold : ℚ) : FlightMode :=
  if airborne_threshold ≤ groundspeed then FlightMode.AIRBORNE else FlightMode.GROUND

/-- Sum of `gs a + gs (a+1) + ... + gs (a+k-1)`: the sum of a window of `k`
consecutive samples starting at row `a`. -/
def sumFrom (gs : ℕ → ℚ) (a : ℕ) : ℕ → ℚ
  | 0 => 0
  | k + 1 => gs a + sumFrom gs (a + 1) k

/-- The trailing rolling-window mean used by `classify_flight`
(`.rolling(window_width, min_periods=1).mean()`): the mean of the samples at
rows `max 0 (i+1-W) .. i` (a shrinking window for the first `W-1` rows). -/
def rollingMean (gs : ℕ → ℚ) (W : ℕ) (i : ℕ) : ℚ :=
  sumFrom gs (i + 1 - W) (i + 1 - (i + 1 - W)) / (((i + 1 - (i + 1 - W)) : ℕ) : ℚ)

/-- Model of `classify_flight` (metrics.py lines 219-237): label every row of the series
by applying `_classify_flight_mode` to the rolling mean of the groundspeed. -/
def classify_flight (n : ℕ) (gs : ℕ → ℚ) (window_width : ℕ)
    (airborne_threshold : ℚ) : List FlightMode :=
  (List.range n).map (fun i =>
    _classify_flight_mode (rollingMean gs window_width i) airborne_threshold)

/-- Errors raised by `_segment_flights` (modelled Python exceptions):
`emptySeries` is the `ValueError` from `idxmax` on an empty series,
`emptyDiffs` the `IndexError` from `diffs[0] = 0` when the trimmed region has
fewer than two rows, and `oddTransitions` the `ValueError` from
`flights.reshape(-1, 2)` on an odd number of transition indices. -/
inductive SegmentError where
  | emptySeries : SegmentError
  | emptyDiffs : SegmentError
  | oddTransitions : SegmentError
deriving DecidableEq, Repr

/-- Model of `(elapsed_time >= start_trim).idxmax()`: the first row index whose elapsed
time is at or past `start_trim`; pandas `idxmax` returns the index of the first
maximal element, which is row 0 when no row satisfies the condition. -/
def trimIdx (n : ℕ) (et : ℕ → ℚ) (start_trim : ℚ) : ℕ :=
  (((List.range n).find? (fun i => decide (start_trim ≤ et i))).getD 0)

/-- The transition indices `np.flatnonzero(diffs == 1) + trim_idx` where
`diffs = np.abs(np.diff(flight_mode[trim_idx:]))` with `diffs[0]` forced to 0:
positions `trim_idx + k` (for `1 ≤ k ≤ m - 2`, `m` the trimmed length) where
the absolute difference of consecutive flight-mode values is 1. -/
def transitions (n : ℕ) (fm : ℕ → FlightMode) (trim_idx : ℕ) : List ℕ :=
  (List.range (n - trim_idx - 1)).filterMap (fun k =>
    if k ≠ 0 ∧ (flightModeVal (fm (trim_idx + k + 1)) - flightModeVal (fm (trim_idx + k))).natAbs = 1
    then some (trim_idx + k) else none)

/-- Model of `flights.reshape(-1, 2).tolist()` on an even-length transition list:
consecutive transition indices grouped into `(takeoff, landing)` pairs. -/
def pairUp : List ℕ → List (ℕ × ℕ)
  | a :: b :: rest => (a, b) :: pairUp rest
  | _ => []

/-- The body of `_segment_flights` after the trim index is known
(metrics.py lines 254-272). -/
def _segment_flights_core (n : ℕ) (et : ℕ → ℚ) (fm : ℕ → FlightMode)
    (trim_idx : ℕ) : Except SegmentError (List (ℕ × ℕ) × List ℚ) :=
  if n - trim_idx < 2 then Except.error SegmentError.emptyDiffs
  else
    let ts := transitions n fm trim_idx
    if ts.length % 2 ≠ 0 then Except.error SegmentError.oddTransitions
    else
      let pairs := pairUp ts
      Except.ok (pairs, List.zipWith (fun p q => et q.1 - et p.2) pairs pairs.tail)

/-- Model of `_segment_flights` (metrics.py lines 240-272): candidate `[takeoff,
landing]` index pairs after the start trim, with the elapsed-time gaps between
adjacent candidates. -/
def _segment_flights (n : ℕ) (et : ℕ → ℚ) (fm : ℕ → FlightMode)
    (start_trim : ℚ) : Except SegmentError (List (ℕ × ℕ) × List ℚ) :=
  if n = 0 then Except.error SegmentError.emptySeries
  else _segment_flights_core n et fm (trimIdx n et start_trim)

instance {ε α : Type} [DecidableEq ε] [DecidableEq α] : DecidableEq (Except ε α) :=
  fun x y =>
    match x, y with
    | Except.error a, Except.error b =>
        if h : a = b then Decidable.isTrue (by rw [h])
        else Decidable.isFalse (fun hh => h (Except.error.inj hh))
    | Except.ok a, Except.ok b =>
        if h : a = b then Decidable.isTrue (by rw [h])
        else Decidable.isFalse (fun hh => h (Except.ok.inj hh))
    | Except.error _, Except.ok _ => Decidable.isFalse (fun hh => Except.noConfusion hh)
    | Except.ok _, Except.error _ => Decidable.isFalse (fun hh => Except.noConfusion hh)

/-- Model of `itertools.zip_longest(flight_segments, next_segment_delta)`: each
candidate paired with the gap to the next candidate, the missing final gap
padded with `none`. -/
def zipLongestPairs : List (ℕ × ℕ) → List ℚ → List ((ℕ × ℕ) × Option ℚ)
  | [], _ => []
  | s :: ss, [] => (s, none) :: zipLongestPairs ss []
  | s :: ss, g :: gs => (s, some g) :: zipLongestPairs ss gs

/-- One iteration of the merge loop in `find_flights` (metrics.py lines
301-333).  The state is `(flight_indices, valid_flights)`; the deque is a list
extended at the tail, read at its first and last element when a segment
closes. -/
def stepMerge (et : ℕ → ℚ) (time_threshold : ℚ)
    (st : List ℕ × List FlightSegment)
    (p : (ℕ × ℕ) × Option ℚ) : List ℕ × List FlightSegment :=
  let segment_duration := et p.1.2 - et p.1.1
  match p.2 with
  | some next_delta =>
    if segment_duration < time_threshold ∧ st.1 = [] ∧ time_threshold ≤ next_delta then
      -- transient spike: clear the (already empty) accumulator and continue
      st
    else
      let flight_indices := st.1 ++ [p.1.1, p.1.2]
      if time_threshold ≤ next_delta then
        let takeoff_idx := flight_indices.headD 0
        let landing_idx := flight_indices.getLastD 0
        let flight_duration := et landing_idx - et takeoff_idx
        if flight_duration < time_threshold then ([], st.2)
        else ([], st.2 ++ [⟨takeoff_idx, landing_idx, flight_duration⟩])
      else (flight_indices, st.2)
  | none =>
    let flight_indices := st.1 ++ [p.1.1, p.1.2]
    let takeoff_idx := flight_indices.headD 0
    let landing_idx := flight_indices.getLastD 0
    let flight_duration := et landing_idx - et takeoff_idx
    if flight_duration < time_threshold then ([], st.2)
    else ([], st.2 ++ [⟨takeoff_idx, landing_idx, flight_duration⟩])

/-- The merge pass of `find_flights` (metrics.py lines 296-338), operating on
an already extracted candidate list and gap list. -/
def find_flights_from_segments (et : ℕ → ℚ) (time_threshold : ℚ)
    (flight_segments : List (ℕ × ℕ)) (next_segment_delta : List ℚ) :
    Option (List FlightSegment) :=
  if flight_segments.length = 0 then none
  else
    let valid_flights :=
      ((zipLongestPairs flight_segments next_segment_delta).foldl
        (stepMerge et time_threshold) ([], [])).2
    if valid_flights.length = 0 then none else some valid_flights

/-- Model of `find_flights` (metrics.py lines 275-338) on a labeled series: extraction
followed by the merge pass; extraction errors propagate to the caller. -/
def find_flights (n : ℕ) (et : ℕ → ℚ) (fm : ℕ → FlightMode)
    (time_threshold : ℚ) (start_trim : ℚ) :
    Except SegmentError (Option (List FlightSegment)) :=
  match _segment_flights n et fm start_trim with
  | Except.error e => Except.error e
  | Except.ok (segs, gaps) =>
      Except.ok (find_flights_from_segments et time_threshold segs gaps)

/-- Model of `LogMetadata` from metrics.py (the fields read by `LogSummary`):
`n_flight_segments` is null when no metrics calculations have been done. -/
structure LogMetadata where
  log_date : String
  log_time : String
  n_flight_segments : Option ℕ
  total_flight_time : ℚ
  flight_segments : Option (List FlightSegment)
deriving DecidableEq, Repr

/-- Model of `LogSummary` from metrics.py; all durations in decimal seconds. -/
structure LogSummary where
  n_logs : ℕ
  n_flight_segments : Option ℕ
  total_flight_time : Option ℚ
  avg_flight_time : Option ℚ
  shortest_flight : Option ℚ
  longest_flight : Option ℚ
deriving DecidableEq, Repr

/-- Errors raised while building a `LogSummary`: `noLogs` is the `ValueError`
for an empty collection, `zeroDivision` the `ZeroDivisionError` from dividing
the total flight time by a zero segment count. -/
inductive SummaryError where
  | noLogs : SummaryError
  | zeroDivision : SummaryError
deriving DecidableEq, Repr

/-- The running accumulator of `LogSummary.from_flight_logs`'s loop
(`n_segments`, `flight_time`, `shortest`, `longest`). -/
structure SummaryFold where
  n_segments : ℕ
  flight_time : ℚ
  shortest : ℚ
  longest : ℚ
deriving DecidableEq, Repr

/-- The inner per-segment update of `LogSummary.from_flight_logs`
(metrics.py lines 148-155). -/
def segFold (st : SummaryFold) (segment : FlightSegment) : SummaryFold :=
  { st with
    flight_time := st.flight_time + segment.duration
    shortest := if st.shortest = 0 ∨ segment.duration < st.shortest
                then segment.duration else st.shortest
    longest := if st.longest < segment.duration then segment.duration else st.longest }

/-- The per-log update of `LogSummary.from_flight_logs` (metrics.py lines
143-155): logs without metrics are skipped; `flight_segments` is only walked
when truthy (non-null and non-empty, though a fold over an empty list is a
no-op anyway). -/
def logFold (st : SummaryFold) (log : LogMetadata) : SummaryFold :=
  match log.n_flight_segments with
  | none => st
  | some k =>
    let st1 := { st with n_segments := st.n_segments + k }
    match log.flight_segments with
    | none => st1
    | some segs => segs.foldl segFold st1

/-- Model of `LogSummary.from_flight_logs` (metrics.py lines 133-178). -/
def LogSummary.from_flight_logs (flight_logs : List LogMetadata) :
    Except SummaryError LogSummary :=
  if flight_logs.length = 0 then Except.error SummaryError.noLogs
  else
    let st := flight_logs.foldl logFold ⟨0, 0, 0, 0⟩
    if st.flight_time = 0 then
      Except.ok
        { n_logs := flight_logs.length
          n_flight_segments := if st.n_segments = 0 then none else some st.n_segments
          total_flight_time := none
          avg_flight_time := none
          shortest_flight := none
          longest_flight := none }
    else
      if st.n_segments = 0 then Except.error SummaryError.zeroDivision
      else
        Except.ok
          { n_logs := flight_logs.length
            n_flight_segments := if st.n_segments = 0 then none else some st.n_segments
            total_flight_time := some st.flight_time
            avg_flight_time := some (st.flight_time / (st.n_segments : ℚ))
            shortest_flight := some st.shortest
            longest_flight := some st.longest }

/-- Model of `db.SummaryTuple` (db.py lines 57-63): the pre-aggregated summary row
coming out of the database. -/
structure SummaryTuple where
  n_logs : ℕ
  n_flight_segments : ℕ
  total_flight_time : ℚ
  flight_segments : List ℚ
deriving DecidableEq, Repr

/-- Model of `LogSummary.from_db_query` (metrics.py lines 185-208): the average is
computed unconditionally before the shortest/longest fold, so a zero segment
count raises `ZeroDivisionError`. -/
def LogSummary.from_db_query (db_data : SummaryTuple) :
    Except SummaryError LogSummary :=
  if db_data.n_flight_segments = 0 then Except.error SummaryError.zeroDivision
  else
    let avg_flight_time := db_data.total_flight_time / (db_data.n_flight_segments : ℚ)
    let sl := db_data.flight_segments.foldl
      (fun (p : ℚ × ℚ) segment =>
        (if p.1 = 0 ∨ segment < p.1 then segment else p.1,
         if p.2 < segment then segment else p.2)) (0, 0)
    Except.ok
      { n_logs := db_data.n_logs
        n_flight_segments := some db_data.n_flight_segments
        total_flight_time := some db_data.total_flight_time
        avg_flight_time := some avg_flight_time
        shortest_flight := some sl.1
        longest_flight := some sl.2 }

/-! Classifier lemmas -/

lemma classify_flight_getD (n : ℕ) (gs : ℕ → ℚ) (W : ℕ) (T : ℚ) (i : ℕ) (hi : i < n) :
    (classify_flight n gs W T).getD i FlightMode.GROUND
      = _classify_flight_mode (rollingMean gs W i) T := by
  simp [classify_flight, List.getD, List.getElem?_map, List.getElem?_range, hi]

lemma sumFrom_update_of_not_mem (gs : ℕ → ℚ) (j : ℕ) (v : ℚ) :
    ∀ (k a : ℕ), j < a ∨ a + k ≤ j →
      sumFrom (Function.update gs j v) a k = sumFrom gs a k
  | 0, _, _ => rfl
  | k + 1, a, h => by
    have ha : a ≠ j := by omega
    have hrec : sumFrom (Function.update gs j v) (a + 1) k = sumFrom gs (a + 1) k :=
      sumFrom_update_of_not_mem gs j v k (a + 1) (by omega)
    simp [sumFrom, Function.update_noteq ha, hrec]

lemma sumFrom_update_of_mem (gs : ℕ → ℚ) (j : ℕ) (v : ℚ) :
    ∀ (k a : ℕ), a ≤ j → j < a + k →
      sumFrom (Function.update gs j v) a k = sumFrom gs a k + (v - gs j)
  | 0, _, h1, h2 => absurd h2 (by omega)
  | k + 1, a, h1, h2 => by
    by_cases ha : a = j
    · subst ha
      have hrec : sumFrom (Function.update gs a v) (a + 1) k = sumFrom gs (a + 1) k :=
        sumFrom_update_of_not_mem gs a v k (a + 1) (by omega)
      simp only [sumFrom, Function.update_same, hrec]
      ring
    · have hrec : sumFrom (Function.update gs j v) (a + 1) k
          = sumFrom gs (a + 1) k + (v - gs j) :=
        sumFrom_update_of_mem gs j v k (a + 1) (by omega) (by omega)
      simp only [sumFrom, Function.update_noteq ha, hrec]
      ring

lemma rollingMean_update_ge (gs : ℕ → ℚ) (W i : ℕ) (hW : 1 ≤ W) (v : ℚ) (hv : gs i ≤ v) :
    rollingMean gs W i ≤ rollingMean (Function.update gs i v) W i := by
  have hlo : i + 1 - W ≤ i := by omega
  have hsum := sumFrom_update_of_mem gs i v (i + 1 - (i + 1 - W)) (i + 1 - W) hlo (by omega)
  rw [rollingMean, rollingMean, hsum]
  have hpos : (0:ℚ) < ((i + 1 - (i + 1 - W) : ℕ) : ℚ) := by
    exact_mod_cast Nat.pos_of_ne_zero (by omega)
  exact (div_le_div_iff_of_pos_right hpos).mpr (by linarith)

/-- Claim C6: `classify_flight` labels every row (shrinking trailing window of
up to `W` samples for the first `W-1` rows), and a row is AIRBORNE iff its
trailing rolling mean is at or above the threshold `T`; a mean exactly `T` is
AIRBORNE and a mean strictly below `T` is GROUND. -/
theorem classify_flight_labels_every_row_iff_threshold
    (n : ℕ) (gs : ℕ → ℚ) (W : ℕ) (T : ℚ) (hW : 1 ≤ W) :
    (classify_flight n gs W T).length = n ∧
    ∀ i, i < n →
      rollingMean gs W i
        = sumFrom gs (i + 1 - W) (min (i + 1) W) / ((min (i + 1) W : ℕ) : ℚ) ∧
      ((classify_flight n gs W T).getD i FlightMode.GROUND = FlightMode.AIRBORNE ↔
        T ≤ rollingMean gs W i) ∧
      ((classify_flight n gs W T).getD i FlightMode.GROUND = FlightMode.GROUND ↔
        rollingMean gs W i < T) := by
  refine ⟨by simp [classify_flight], fun i hi => ?_⟩
  have hmin : i + 1 - (i + 1 - W) = min (i + 1) W := by omega
  refine ⟨by rw [rollingMean, hmin], ?_, ?_⟩
  · rw [classify_flight_getD n gs W T i hi, _classify_flight_mode]
    split_ifs with h
    · simp [h]
    · simp [h]
  · rw [classify_flight_getD n gs W T i hi, _classify_flight_mode]
    split_ifs with h
    · simp [not_lt.mpr h]
    · simp [not_le.mp h]

/-- Witness for C6 at a concrete input: one row with groundspeed 5, window 1,
threshold 5; the mean equals the threshold exactly and the row is AIRBORNE. -/
theorem classify_flight_labels_every_row_iff_threshold_witness :
    (classify_flight 1 (fun _ => (5:ℚ)) 1 5).length = 1 ∧
    ((classify_flight 1 (fun _ => (5:ℚ)) 1 5).getD 0 FlightMode.GROUND = FlightMode.AIRBORNE ↔
      (5:ℚ) ≤ rollingMean (fun _ => (5:ℚ)) 1 0) := by
  have h := classify_flight_labels_every_row_iff_threshold 1 (fun _ => (5:ℚ)) 1 5 (by norm_num)
  exact ⟨h.1, (h.2 0 (by norm_num)).2.1⟩

/-- Claim C7: raising the groundspeed of one sample (all other samples fixed)
never flips that sample's label from AIRBORNE to GROUND. -/
theorem classify_flight_monotone_in_sample
    (n : ℕ) (gs : ℕ → ℚ) (W : ℕ) (T : ℚ) (i : ℕ) (v : ℚ)
    (hW : 1 ≤ W) (hi : i < n) (hv : gs i ≤ v)
    (hair : (classify_flight n gs W T).getD i FlightMode.GROUND = FlightMode.AIRBORNE) :
    (classify_flight n (Function.update gs i v) W T).getD i FlightMode.GROUND
      = FlightMode.AIRBORNE := by
  rw [classify_flight_getD n gs W T i hi] at hair
  rw [classify_flight_getD n (Function.update gs i v) W T i hi]
  have h1 : T ≤ rollingMean gs W i := by
    by_contra hc
    rw [_classify_flight_mode, if_neg hc] at hair
    exact FlightMode.noConfusion hair
  have h2 : T ≤ rollingMean (Function.update gs i v) W i :=
    le_trans h1 (rollingMean_update_ge gs W i hW v hv)
  rw [_classify_flight_mode, if_pos h2]

/-- Witness for C7 at a concrete input: raising the only sample from 5 to 6
keeps its AIRBORNE label. -/
theorem classify_flight_monotone_in_sample_witness :
    (classify_flight 1 (Function.update (fun _ => (5:ℚ)) 0 6) 1 5).getD 0 FlightMode.GROUND
      = FlightMode.AIRBORNE := by
  refine classify_flight_monotone_in_sample 1 (fun _ => (5:ℚ)) 1 5 0 6
    (by norm_num) (by norm_num) (by norm_num) ?_
  have hr : List.range 1 = [0] := by decide
  norm_num [classify_flight, _classify_flight_mode, rollingMean, sumFrom, hr, List.getD]

/-! Summary lemmas -/

/-- The `LogMetadata` consistency invariant of the data model: whenever both
`n_flight_segments` and `flight_segments` are non-null, the count equals the
length of the segment list. -/
def WellFormedLog (log : LogMetadata) : Prop :=
  ∀ k segs, log.n_flight_segments = some k → log.flight_segments = some segs →
    k = segs.length

lemma segFold_n_segments (segs : List FlightSegment) :
    ∀ st : SummaryFold, (segs.foldl segFold st).n_segments = st.n_segments := by
  induction segs with
  | nil => intro st; rfl
  | cons s rest ih => intro st; rw [List.foldl_cons, ih]; rfl

lemma logFold_inv (logs : List LogMetadata) :
    ∀ st : SummaryFold,
      (st.flight_time ≠ 0 → st.n_segments ≠ 0) →
      (∀ log ∈ logs, WellFormedLog log) →
      ((logs.foldl logFold st).flight_time ≠ 0 → (logs.foldl logFold st).n_segments ≠ 0) := by
  induction logs with
  | nil => intro st hst _ ; exact hst
  | cons log rest ih =>
    intro st hst hwf
    rw [List.foldl_cons]
    refine ih (logFold st log) ?_ (fun l hl => hwf l (List.mem_cons_of_mem log hl))
    have hwl : WellFormedLog log := hwf log (List.mem_cons_self log rest)
    rw [logFold]
    cases hk : log.n_flight_segments with
    | none => exact hst
    | some k =>
      cases hs : log.flight_segments with
      | none =>
        intro hft
        have h1 : st.flight_time ≠ 0 := hft
        have h2 := hst h1
        simp only [ne_eq] at h2 ⊢
        omega
      | some segs =>
        cases segs with
        | nil =>
          intro hft
          have h1 : st.flight_time ≠ 0 := by
            simpa using hft
          have h2 := hst h1
          rw [segFold_n_segments]
          simp only [ne_eq] at h2 ⊢
          omega
        | cons s rest' =>
          intro _
          have hk' : k = (s :: rest').length := hwl k (s :: rest') hk hs
          rw [segFold_n_segments]
          simp [hk']

/-- Claim C9: building a cross-log summary from zero logs always fails (the
`ValueError` for an empty collection), while any non-empty collection whose
metadata satisfies the data-model consistency invariant — including logs that
never ran classification — yields a `LogSummary` value. -/
theorem from_flight_logs_empty_raises_nonempty_succeeds :
    LogSummary.from_flight_logs [] = Except.error SummaryError.noLogs ∧
    ∀ logs : List LogMetadata, logs ≠ [] → (∀ log ∈ logs, WellFormedLog log) →
      ∃ s, LogSummary.from_flight_logs logs = Except.ok s := by
  refine ⟨rfl, fun logs hne hwf => ?_⟩
  rw [LogSummary.from_flight_logs]
  have hlen : ¬ logs.length = 0 := by
    simpa using hne
  rw [if_neg hlen]
  by_cases hft : (logs.foldl logFold ⟨0, 0, 0, 0⟩).flight_time = 0
  · rw [if_pos hft]
    exact ⟨_, rfl⟩
  · rw [if_neg hft]
    have hn : (logs.foldl logFold ⟨0, 0, 0, 0⟩).n_segments ≠ 0 :=
      logFold_inv logs ⟨0, 0, 0, 0⟩ (fun h => absurd rfl h) hwf hft
    rw [if_neg hn]
    exact ⟨_, rfl⟩

/-- Witness for C9: the empty collection errors, and a singleton collection
holding a log that never ran classification succeeds. -/
theorem from_flight_logs_empty_raises_nonempty_succeeds_witness :
    LogSummary.from_flight_logs [] = Except.error SummaryError.noLogs ∧
    ∃ s, LogSummary.from_flight_logs [⟨"2022-04-20", "04-20-00", none, 0, none⟩]
      = Except.ok s := by
  refine ⟨from_flight_logs_empty_raises_nonempty_succeeds.1, ?_⟩
  refine from_flight_logs_empty_raises_nonempty_succeeds.2 _ (by simp) ?_
  intro log hlog k segs hk hs
  have hl : log = ⟨"2022-04-20", "04-20-00", none, 0, none⟩ := by
    simpa using hlog
  rw [hl] at hk
  exact absurd hk (by simp)

/-- Counterexample to C8 as stated: a persisted summary tuple with
`n_flight_segments = 0` (and a non-zero total) makes `from_db_query` raise
`ZeroDivisionError` instead of returning a summary with a null
`avg_flight_time`. -/
theorem from_db_query_zero_segments_raises :
    LogSummary.from_db_query ⟨1, 0, 5, []⟩ = Except.error SummaryError.zeroDivision := by
  decide

/-- C8 as amended: `from_flight_logs` returns a null average exactly when the
total is null, and the total/count quotient otherwise (with a necessarily
non-zero count); `from_db_query` divides unconditionally, raising
`ZeroDivisionError` on a zero segment count and otherwise always returning
`total_flight_time / n_flight_segments`, never null. -/
theorem avg_flight_time_semantics :
    (∀ (logs : List LogMetadata) (s : LogSummary),
      LogSummary.from_flight_logs logs = Except.ok s →
        (s.total_flight_time = none → s.avg_flight_time = none) ∧
        (∀ t, s.total_flight_time = some t →
          ∃ k, s.n_flight_segments = some k ∧ k ≠ 0 ∧
            s.avg_flight_time = some (t / (k : ℚ)))) ∧
    (∀ d : SummaryTuple, d.n_flight_segments = 0 →
      LogSummary.from_db_query d = Except.error SummaryError.zeroDivision) ∧
    (∀ (d : SummaryTuple) (s : LogSummary),
      LogSummary.from_db_query d = Except.ok s →
        s.avg_flight_time
          = some (d.total_flight_time / (d.n_flight_segments : ℚ))) := by
  refine ⟨fun logs s h => ?_, fun d hd => ?_, fun d s h => ?_⟩
  · rw [LogSummary.from_flight_logs] at h
    by_cases hlen : logs.length = 0
    · rw [if_pos hlen] at h
      exact Except.noConfusion h
    rw [if_neg hlen] at h
    by_cases hft : (logs.foldl logFold ⟨0, 0, 0, 0⟩).flight_time = 0
    · rw [if_pos hft] at h
      have hs := Except.ok.inj h
      subst hs
      refine ⟨fun _ => rfl, fun t ht => absurd ht (by simp)⟩
    rw [if_neg hft] at h
    by_cases hn : (logs.foldl logFold ⟨0, 0, 0, 0⟩).n_segments = 0
    · rw [if_pos hn] at h
      exact Except.noConfusion h
    rw [if_neg hn] at h
    have hs := Except.ok.inj h
    subst hs
    constructor
    · intro hcontr
      exact absurd hcontr (by simp)
    · intro t ht
      simp only [Option.some.injEq] at ht
      exact ⟨(logs.foldl logFold ⟨0, 0, 0, 0⟩).n_segments, by simp [hn], hn, by simp [ht]⟩
  · rw [LogSummary.from_db_query, if_pos hd]
  · rw [LogSummary.from_db_query] at h
    by_cases hn : d.n_flight_segments = 0
    · rw [if_pos hn] at h
      exact Except.noConfusion h
    rw [if_neg hn] at h
    have hs := Except.ok.inj h
    subst hs
    rfl

/-- Witness for C8's amended statement at concrete inputs: a log collection
with no classified metrics gives a null average; a zero-count db tuple raises;
a db tuple with 2 segments totalling 8 seconds gives average 4. -/
theorem avg_flight_time_semantics_witness :
    (LogSummary.from_flight_logs [⟨"2022-04-20", "04-20-00", none, 0, none⟩]
        = Except.ok ⟨1, none, none, none, none, none⟩ →
      ((⟨1, none, none, none, none, none⟩ : LogSummary).total_flight_time = none →
        (⟨1, none, none, none, none, none⟩ : LogSummary).avg_flight_time = none)) ∧
    LogSummary.from_db_query ⟨2, 0, 5, []⟩ = Except.error SummaryError.zeroDivision ∧
    (LogSummary.from_db_query ⟨1, 2, 8, [3, 5]⟩
        = Except.ok ⟨1, some 2, some 8, some 4, some 3, some 5⟩ →
      (⟨1, some 2, some 8, some 4, some 3, some 5⟩ : LogSummary).avg_flight_time
        = some ((8 : ℚ) / ((2 : ℕ) : ℚ))) := by
  refine ⟨fun h => (avg_flight_time_semantics.1 _ _ h).1, ?_, fun h => ?_⟩
  · exact avg_flight_time_semantics.2.1 ⟨2, 0, 5, []⟩ rfl
  · exact avg_flight_time_semantics.2.2 ⟨1, 2, 8, [3, 5]⟩ _ h

/-! Extractor lemmas -/

lemma trimIdx_eq_zero_of_all_below (n : ℕ) (et : ℕ → ℚ) (start_trim : ℚ)
    (h : ∀ i, i < n → et i < start_trim) : trimIdx n et start_trim = 0 := by
  rw [trimIdx]
  have hfind : (List.range n).find? (fun i => decide (start_trim ≤ et i)) = none := by
    rw [List.find?_eq_none]
    intro i hi
    simp only [decide_eq_true_eq]
    exact not_le.mpr (h i (List.mem_range.mp hi))
  rw [hfind]
  rfl

/-- Counterexample to C4 as stated: a 4-row series whose elapsed times all lie
below `start_trim = 45` does not give an empty candidate list — the trim index
falls back to row 0 (pandas `idxmax` of an all-false mask) and the whole
series is segmented, returning the candidate `(1, 2)`. -/
theorem segment_flights_all_below_trim_counterexample :
    ((fun i => (i : ℚ)) 0 < 45 ∧ (fun i => (i : ℚ)) 1 < 45 ∧
     (fun i => (i : ℚ)) 2 < 45 ∧ (fun i => (i : ℚ)) 3 < 45) ∧
    _segment_flights 4 (fun i => (i : ℚ))
        (fun i => if i = 2 then FlightMode.AIRBORNE else FlightMode.GROUND) 45
      = Except.ok ([(1, 2)], []) := by
  constructor
  · refine ⟨by norm_num, by norm_num, by norm_num, by norm_num⟩
  · decide

/-- C4 as amended: when no row's elapsed time reaches `start_trim`, the trim
index falls back to 0, so (on a non-empty series) the extractor behaves as if
there were no trim at all — the whole series is segmented untrimmed, and
candidates may be returned. -/
theorem segment_flights_all_below_trim_amended (n : ℕ) (et : ℕ → ℚ)
    (fm : ℕ → FlightMode) (start_trim : ℚ)
    (h : ∀ i, i < n → et i < start_trim) :
    trimIdx n et start_trim = 0 ∧
    (n ≠ 0 → _segment_flights n et fm start_trim = _segment_flights_core n et fm 0) := by
  refine ⟨trimIdx_eq_zero_of_all_below n et start_trim h, fun hn => ?_⟩
  rw [_segment_flights, if_neg hn, trimIdx_eq_zero_of_all_below n et start_trim h]

/-- Witness for C4's amended statement: a 2-row all-GROUND series below the
trim threshold is processed untrimmed. -/
theorem segment_flights_all_below_trim_amended_witness :
    trimIdx 2 (fun i => (i : ℚ)) 45 = 0 ∧
    ((2 : ℕ) ≠ 0 → _segment_flights 2 (fun i => (i : ℚ)) (fun _ => FlightMode.GROUND) 45
      = _segment_flights_core 2 (fun i => (i : ℚ)) (fun _ => FlightMode.GROUND) 0) := by
  refine segment_flights_all_below_trim_amended 2 (fun i => (i : ℚ))
    (fun _ => FlightMode.GROUND) 45 ?_
  intro i hi
  interval_cases i <;> norm_num

/-- Counterexample to C5 as stated: a series whose labels switch to AIRBORNE
once and never return to GROUND has one (odd) transition; the extraction step
does not return "no usable candidates" — it raises (the `ValueError` from
`reshape(-1, 2)`), and `find_flights` propagates the exception. -/
theorem segment_flights_odd_transitions_counterexample :
    _segment_flights 4 (fun i => (i : ℚ))
        (fun i => if 2 ≤ i then FlightMode.AIRBORNE else FlightMode.GROUND) 0
      = Except.error SegmentError.oddTransitions ∧
    find_flights 4 (fun i => (i : ℚ))
        (fun i => if 2 ≤ i then FlightMode.AIRBORNE else FlightMode.GROUND) 10 0
      = Except.error SegmentError.oddTransitions := by
  constructor <;> decide

/-- C5 as amended: when the trimmed region holds an odd number of transition
points, `_segment_flights` raises the reshape error instead of returning, and
the error escapes through `find_flights` to its caller. -/
theorem segment_flights_odd_transitions_amended (n : ℕ) (et : ℕ → ℚ)
    (fm : ℕ → FlightMode) (time_threshold start_trim : ℚ)
    (hn : n ≠ 0) (hm : ¬ n - trimIdx n et start_trim < 2)
    (hodd : (transitions n fm (trimIdx n et start_trim)).length % 2 ≠ 0) :
    _segment_flights n et fm start_trim = Except.error SegmentError.oddTransitions ∧
    find_flights n et fm time_threshold start_trim
      = Except.error SegmentError.oddTransitions := by
  have h1 : _segment_flights n et fm start_trim = Except.error SegmentError.oddTransitions := by
    rw [_segment_flights, if_neg hn, _segment_flights_core, if_neg hm, if_pos hodd]
  exact ⟨h1, by rw [find_flights, h1]⟩

/-- Witness for C5's amended statement at the concrete odd-transition series. -/
theorem segment_flights_odd_transitions_amended_witness :
    _segment_flights 4 (fun i => (i : ℚ))
        (fun i => if 2 ≤ i then FlightMode.AIRBORNE else FlightMode.GROUND) 0
      = Except.error SegmentError.oddTransitions ∧
    find_flights 4 (fun i => (i : ℚ))
        (fun i => if 2 ≤ i then FlightMode.AIRBORNE else FlightMode.GROUND) 10 0
      = Except.error SegmentError.oddTransitions :=
  segment_flights_odd_transitions_amended 4 (fun i => (i : ℚ))
    (fun i => if 2 ≤ i then FlightMode.AIRBORNE else FlightMode.GROUND) 10 0
    (by decide) (by decide) (by decide)

/-- Claim C10 (a code bug): on a 2-row series where only the last row passes
`start_trim`, the trimmed region has a single row, the consecutive-difference
array is empty, and `diffs[0] = 0` raises `IndexError` instead of the claimed
normal return with empty candidate and gap lists. -/
theorem segment_flights_short_trimmed_region_raises :
    _segment_flights 2 (fun i => if i = 0 then (0 : ℚ) else 50) (fun _ => FlightMode.GROUND) 45
      = Except.error SegmentError.emptyDiffs := by
  decide

/-! Merger lemmas -/

lemma stepMerge_discard (et : ℕ → ℚ) (T : ℚ) (st : List ℕ × List FlightSegment)
    (s e : ℕ) (d : ℚ) (hdur : et e - et s < T) (hacc : st.1 = []) (hgap : T ≤ d) :
    stepMerge et T st ((s, e), some d) = st := by
  rw [stepMerge]
  exact if_pos ⟨hdur, hacc, hgap⟩

lemma zipLongestPairs_cons (c : ℕ × ℕ) (ss : List (ℕ × ℕ)) (g : ℚ) (gs : List ℚ) :
    zipLongestPairs (c :: ss) (g :: gs) = (c, some g) :: zipLongestPairs ss gs := rfl

lemma merge_discard_eraseIdx (et : ℕ → ℚ) (T : ℚ) :
    ∀ (i : ℕ) (segs : List (ℕ × ℕ)) (gaps : List ℚ) (st : List ℕ × List FlightSegment),
      gaps.length + 1 = segs.length → i < gaps.length →
      ((((zipLongestPairs segs gaps).take i).foldl (stepMerge et T) st).1 = []) →
      et (segs.getD i (0, 0)).2 - et (segs.getD i (0, 0)).1 < T →
      T ≤ gaps.getD i 0 →
      (zipLongestPairs segs gaps).foldl (stepMerge et T) st
        = (zipLongestPairs (segs.eraseIdx i) (gaps.eraseIdx i)).foldl (stepMerge et T) st := by
  intro i
  induction i with
  | zero =>
    intro segs gaps st hlen hi hacc hdur hgap
    match segs, gaps with
    | [], _ => exact absurd hlen (by simp)
    | _ :: _, [] => exact absurd hi (by simp)
    | c :: ss, g :: gs =>
      simp only [List.take_zero, List.foldl_nil] at hacc
      simp only [List.getD_cons_zero] at hdur hgap
      rw [zipLongestPairs_cons, List.foldl_cons,
        stepMerge_discard et T st c.1 c.2 g hdur hacc hgap]
      rfl
  | succ k ih =>
    intro segs gaps st hlen hi hacc hdur hgap
    match segs, gaps with
    | [], _ => exact absurd hlen (by simp)
    | _ :: _, [] => exact absurd hi (by simp)
    | c :: ss, g :: gs =>
      rw [zipLongestPairs_cons, List.take_succ_cons, List.foldl_cons] at hacc
      simp only [List.getD_cons_succ] at hdur hgap
      rw [zipLongestPairs_cons, List.foldl_cons, List.eraseIdx_cons_succ,
        List.eraseIdx_cons_succ, zipLongestPairs_cons, List.foldl_cons]
      exact ih ss gs (stepMerge et T st (c, some g)) (by simpa using hlen)
        (by simpa using hi) hacc hdur hgap

/-- Claim C1: a candidate below the duration threshold, met with an empty
accumulator and separated from the next candidate by a gap at or above the
threshold, is discarded entirely: the merge result is the same as if that
candidate (and its gap) had never been processed, so it contributes to no
emitted `FlightSegment`. -/
theorem find_flights_discards_isolated_spike (et : ℕ → ℚ) (time_threshold : ℚ)
    (segs : List (ℕ × ℕ)) (gaps : List ℚ) (i : ℕ)
    (hlen : gaps.length + 1 = segs.length) (hi : i < gaps.length)
    (hacc : ((((zipLongestPairs segs gaps).take i).foldl
      (stepMerge et time_threshold) ([], [])).1 = []))
    (hdur : et (segs.getD i (0, 0)).2 - et (segs.getD i (0, 0)).1 < time_threshold)
    (hgap : time_threshold ≤ gaps.getD i 0) :
    find_flights_from_segments et time_threshold segs gaps
      = find_flights_from_segments et time_threshold (segs.eraseIdx i) (gaps.eraseIdx i) := by
  have hfold := merge_discard_eraseIdx et time_threshold i segs gaps ([], [])
    hlen hi hacc hdur hgap
  have hlen1 : ¬ segs.length = 0 := by omega
  have hilen : i < segs.length := by omega
  have hlen2 : ¬ (segs.eraseIdx i).length = 0 := by
    have := List.length_eraseIdx_add_one hilen
    omega
  rw [find_flights_from_segments, find_flights_from_segments, if_neg hlen1, if_neg hlen2, hfold]

/-- Witness for C1: a 2-second candidate with a 50-second gap to the next
candidate is dropped (the result equals the run without it), and since the
remaining candidate is itself below the threshold, the merger returns the
explicit "no segments" result. -/
theorem find_flights_discards_isolated_spike_witness :
    find_flights_from_segments (fun i => (i : ℚ)) 10 [(0, 2), (52, 54)] [50]
        = find_flights_from_segments (fun i => (i : ℚ)) 10
            ([(0, 2), (52, 54)].eraseIdx 0) (([50] : List ℚ).eraseIdx 0) ∧
    find_flights_from_segments (fun i => (i : ℚ)) 10 [(0, 2), (52, 54)] [50] = none := by
  constructor
  · refine find_flights_discards_isolated_spike (fun i => (i : ℚ)) 10
      [(0, 2), (52, 54)] [50] 0 (by simp) (by simp) (by simp) (by norm_num) (by norm_num)
  · norm_num [find_flights_from_segments, zipLongestPairs, stepMerge, List.foldl]

/-- Claim C2: two candidates where the first is short (3 s) but close to the
next (gap 2 s < threshold 10) and the second is a long flight (600 s) with no
next gap merge into exactly one `FlightSegment` spanning from the first
candidate's start to the second candidate's end. -/
theorem find_flights_folds_close_short_candidate :
    find_flights_from_segments (fun i => (i : ℚ)) 10 [(0, 3), (5, 605)] [2]
      = some [⟨0, 605, 605⟩] := by
  norm_num [find_flights_from_segments, zipLongestPairs, stepMerge, List.foldl]

/-- The flattened contents of the accumulator deque when it holds the index
pairs of the candidates in `l`, in order. -/
def flatPairs : List (ℕ × ℕ) → List ℕ
  | [] => []
  | p :: ps => p.1 :: p.2 :: flatPairs ps

lemma flatPairs_append (l₁ l₂ : List (ℕ × ℕ)) :
    flatPairs (l₁ ++ l₂) = flatPairs l₁ ++ flatPairs l₂ := by
  induction l₁ with
  | nil => rfl
  | cons p ps ih => simp [flatPairs, ih]

lemma flatPairs_eq_nil_iff (l : List (ℕ × ℕ)) : flatPairs l = [] ↔ l = [] := by
  cases l <;> simp [flatPairs]

lemma flatPairs_concat_headD (run : List (ℕ × ℕ)) (c : ℕ × ℕ) :
    (flatPairs run ++ [c.1, c.2]).headD 0 = ((run ++ [c]).headD (0, 0)).1 := by
  cases run <;> rfl

lemma flatPairs_concat_getLastD (run : List (ℕ × ℕ)) (c : ℕ × ℕ) :
    (flatPairs run ++ [c.1, c.2]).getLastD 0 = c.2 := by
  have h : flatPairs run ++ [c.1, c.2] = (flatPairs run ++ [c.1]) ++ [c.2] := by simp
  rw [h, List.getLastD_concat]

lemma concat_headD_mem (run : List (ℕ × ℕ)) (c : ℕ × ℕ) (l : List (ℕ × ℕ)) :
    (run ++ [c]).headD (0, 0) ∈ run ++ c :: l := by
  cases run with
  | nil => simp
  | cons p ps => simp

lemma getLastD_concat_pair (run : List (ℕ × ℕ)) (c : ℕ × ℕ) :
    (run ++ [c]).getLastD (0, 0) = c := by
  rw [List.getLastD_concat]

lemma run_extend_left {α : Type} {r l : List α} (w : List α) (h : r <:+: l) :
    r <:+: (w ++ l) := by
  obtain ⟨u, v, huv⟩ := h
  exact ⟨w ++ u, v, by rw [← huv]; simp⟩

lemma stepMerge_extend (et : ℕ → ℚ) (T : ℚ) (st : List ℕ × List FlightSegment)
    (s e : ℕ) (d : ℚ) (hgap : ¬ T ≤ d) :
    stepMerge et T st ((s, e), some d) = (st.1 ++ [s, e], st.2) := by
  have h1 : ¬ (et e - et s < T ∧ st.1 = [] ∧ T ≤ d) := fun hc => hgap hc.2.2
  simp only [stepMerge]
  rw [if_neg h1, if_neg hgap]

lemma stepMerge_close_some (et : ℕ → ℚ) (T : ℚ) (st : List ℕ × List FlightSegment)
    (s e : ℕ) (d : ℚ) (hgap : T ≤ d) (hnd : ¬ (et e - et s < T ∧ st.1 = [] ∧ T ≤ d)) :
    stepMerge et T st ((s, e), some d)
      = (if et ((st.1 ++ [s, e]).getLastD 0) - et ((st.1 ++ [s, e]).headD 0) < T
         then ([], st.2)
         else ([], st.2 ++ [⟨(st.1 ++ [s, e]).headD 0, (st.1 ++ [s, e]).getLastD 0,
           et ((st.1 ++ [s, e]).getLastD 0) - et ((st.1 ++ [s, e]).headD 0)⟩])) := by
  simp only [stepMerge]
  rw [if_neg hnd, if_pos hgap]

lemma stepMerge_close_none (et : ℕ → ℚ) (T : ℚ) (st : List ℕ × List FlightSegment)
    (s e : ℕ) :
    stepMerge et T st ((s, e), none)
      = (if et ((st.1 ++ [s, e]).getLastD 0) - et ((st.1 ++ [s, e]).headD 0) < T
         then ([], st.2)
         else ([], st.2 ++ [⟨(st.1 ++ [s, e]).headD 0, (st.1 ++ [s, e]).getLastD 0,
           et ((st.1 ++ [s, e]).getLastD 0) - et ((st.1 ++ [s, e]).headD 0)⟩])) := rfl

lemma zipLongestPairs_map_fst :
    ∀ (segs : List (ℕ × ℕ)) (gaps : List ℚ),
      (zipLongestPairs segs gaps).map Prod.fst = segs
  | [], _ => rfl
  | s :: ss, [] => by
    simp only [zipLongestPairs, List.map_cons, zipLongestPairs_map_fst ss []]
  | s :: ss, g :: gs => by
    simp only [zipLongestPairs, List.map_cons, zipLongestPairs_map_fst ss gs]

lemma mergeInvariant (et : ℕ → ℚ) (T : ℚ) :
    ∀ (ps : List ((ℕ × ℕ) × Option ℚ)) (run : List (ℕ × ℕ)) (valid : List FlightSegment),
      ((run ++ ps.map Prod.fst).Pairwise (fun a b => a.2 < b.1)) →
      (∀ seg ∈ valid, seg.duration = et seg.end_idx - et seg.start_idx ∧ T ≤ seg.duration) →
      (valid.Chain' (fun a b => a.end_idx < b.start_idx)) →
      (∀ seg ∈ valid, ∀ p ∈ run ++ ps.map Prod.fst, seg.end_idx < p.1) →
      (∀ seg ∈ (ps.foldl (stepMerge et T) (flatPairs run, valid)).2,
          seg.duration = et seg.end_idx - et seg.start_idx ∧ T ≤ seg.duration) ∧
      ((ps.foldl (stepMerge et T) (flatPairs run, valid)).2).Chain'
          (fun a b => a.end_idx < b.start_idx) ∧
      (∀ seg ∈ (ps.foldl (stepMerge et T) (flatPairs run, valid)).2,
          seg ∈ valid ∨ ∃ r, r ≠ [] ∧ r <:+: (run ++ ps.map Prod.fst) ∧
            seg.start_idx = (r.headD (0, 0)).1 ∧ seg.end_idx = (r.getLastD (0, 0)).2) := by
  intro ps
  induction ps with
  | nil =>
    intro run valid HP HV1 HV2 HV3
    exact ⟨HV1, HV2, fun seg hs => Or.inl hs⟩
  | cons p rest ih =>
    obtain ⟨c, g⟩ := p
    intro run valid HP HV1 HV2 HV3
    rw [List.foldl_cons]
    have hmapfst : ((c, g) :: rest).map Prod.fst = c :: rest.map Prod.fst := rfl
    rw [hmapfst] at HP HV3 ⊢
    by_cases hdisc : et c.2 - et c.1 < T ∧ flatPairs run = [] ∧ ∃ d, g = some d ∧ T ≤ d
    · -- Case A first sub-branch: isolated transient spike, discarded
      obtain ⟨hdur, hrun0, d, hg, hgap⟩ := hdisc
      have hrun : run = [] := (flatPairs_eq_nil_iff run).mp hrun0
      subst hg
      subst hrun
      rw [stepMerge_discard et T _ c.1 c.2 d hdur rfl hgap]
      simp only [List.nil_append] at HP HV3 ⊢
      have HP' : ((([] : List (ℕ × ℕ))) ++ rest.map Prod.fst).Pairwise
          (fun a b => a.2 < b.1) := by
        simpa using HP.of_cons
      have HV3' : ∀ seg ∈ valid, ∀ q ∈ ([] : List (ℕ × ℕ)) ++ rest.map Prod.fst,
          seg.end_idx < q.1 := by
        intro seg hs q hq
        simp only [List.nil_append] at hq
        exact HV3 seg hs q (List.mem_cons_of_mem c hq)
      obtain ⟨I1, I2, I3⟩ := ih [] valid HP' HV1 HV2 HV3'
      simp only [flatPairs, List.nil_append] at I1 I2 I3
      refine ⟨I1, I2, fun seg hs => ?_⟩
      rcases I3 seg hs with hmem | ⟨r, hne, hinf, h1, h2⟩
      · exact Or.inl hmem
      · refine Or.inr ⟨r, hne, ?_, h1, h2⟩
        have := run_extend_left [c] hinf
        simpa using this
    · by_cases hext : ∃ d, g = some d ∧ ¬ T ≤ d
      · -- Case A second sub-branch / Case B with a short next gap: accumulate
        obtain ⟨d, hg, hgap⟩ := hext
        subst hg
        rw [stepMerge_extend et T _ c.1 c.2 d hgap]
        have hfp : ((flatPairs run, valid) : List ℕ × List FlightSegment).1 ++ [c.1, c.2]
            = flatPairs (run ++ [c]) := by
          rw [flatPairs_append]; rfl
        rw [hfp]
        have hLL : run ++ c :: rest.map Prod.fst = (run ++ [c]) ++ rest.map Prod.fst := by
          simp
        rw [hLL] at HP HV3
        obtain ⟨I1, I2, I3⟩ := ih (run ++ [c]) valid HP HV1 HV2 HV3
        refine ⟨I1, I2, fun seg hs => ?_⟩
        rcases I3 seg hs with hmem | ⟨r, hne, hinf, h1, h2⟩
        · exact Or.inl hmem
        · refine Or.inr ⟨r, hne, ?_, h1, h2⟩
          rw [hLL]
          exact hinf
      · -- Landing check fires: the accumulation closes
        have hstep : stepMerge et T (flatPairs run, valid) ((c.1, c.2), g)
            = (if et c.2 - et ((run ++ [c]).headD (0, 0)).1 < T
               then ([], valid)
               else ([], valid ++ [⟨((run ++ [c]).headD (0, 0)).1, c.2,
                 et c.2 - et ((run ++ [c]).headD (0, 0)).1⟩])) := by
          have hrw1 := flatPairs_concat_headD run c
          have hrw2 := flatPairs_concat_getLastD run c
          cases g with
          | none =>
            rw [stepMerge_close_none et T (flatPairs run, valid) c.1 c.2]
            rw [hrw1, hrw2]
          | some d =>
            have hgap : T ≤ d := by
              by_contra hc
              exact hext ⟨d, rfl, hc⟩
            rw [stepMerge_close_some et T (flatPairs run, valid) c.1 c.2 d hgap
              (fun hc => hdisc ⟨hc.1, hc.2.1, d, rfl, hc.2.2⟩)]
            rw [hrw1, hrw2]
        rw [hstep]
        have HP' : ((([] : List (ℕ × ℕ))) ++ rest.map Prod.fst).Pairwise
            (fun a b => a.2 < b.1) := by
          simp only [List.nil_append]
          exact HP.sublist ((List.sublist_cons_self c _).trans
            (List.sublist_append_right run _))
        have HV3restrict : ∀ seg ∈ valid, ∀ q ∈ ([] : List (ℕ × ℕ)) ++ rest.map Prod.fst,
            seg.end_idx < q.1 := by
          intro seg hs q hq
          simp only [List.nil_append] at hq
          exact HV3 seg hs q (List.mem_append_right run (List.mem_cons_of_mem c hq))
        by_cases hfd : et c.2 - et ((run ++ [c]).headD (0, 0)).1 < T
        · -- merged cluster still below the duration threshold: dropped
          rw [if_pos hfd]
          obtain ⟨I1, I2, I3⟩ := ih [] valid HP' HV1 HV2 HV3restrict
          simp only [flatPairs] at I1 I2 I3
          refine ⟨I1, I2, fun seg hs => ?_⟩
          rcases I3 seg hs with hmem | ⟨r, hne, hinf, h1, h2⟩
          · exact Or.inl hmem
          · refine Or.inr ⟨r, hne, ?_, h1, h2⟩
            simp only [List.nil_append] at hinf
            have hlift := run_extend_left (run ++ [c]) hinf
            simpa using hlift
        · -- a validated flight segment is emitted
          rw [if_neg hfd]
          have HV1' : ∀ seg ∈ valid ++ [⟨((run ++ [c]).headD (0, 0)).1, c.2,
              et c.2 - et ((run ++ [c]).headD (0, 0)).1⟩],
              seg.duration = et seg.end_idx - et seg.start_idx ∧ T ≤ seg.duration := by
            intro seg hs
            rcases List.mem_append.mp hs with h | h
            · exact HV1 seg h
            · simp only [List.mem_singleton] at h
              subst h
              exact ⟨rfl, not_lt.mp hfd⟩
          have HV2' : (valid ++ [(⟨((run ++ [c]).headD (0, 0)).1, c.2,
              et c.2 - et ((run ++ [c]).headD (0, 0)).1⟩ : FlightSegment)]).Chain'
              (fun a b => a.end_idx < b.start_idx) := by
            rw [List.chain'_append]
            refine ⟨HV2, List.chain'_singleton _, ?_⟩
            intro x hx y hy
            simp only [List.head?_cons, Option.mem_some_iff] at hy
            subst hy
            exact HV3 x (List.mem_of_mem_getLast? hx) _ (concat_headD_mem run c _)
          have HV3' : ∀ seg ∈ valid ++ [(⟨((run ++ [c]).headD (0, 0)).1, c.2,
              et c.2 - et ((run ++ [c]).headD (0, 0)).1⟩ : FlightSegment)],
              ∀ q ∈ ([] : List (ℕ × ℕ)) ++ rest.map Prod.fst, seg.end_idx < q.1 := by
            intro seg hs q hq
            simp only [List.nil_append] at hq
            rcases List.mem_append.mp hs with h | h
            · exact HV3restrict seg h q (by simpa using hq)
            · simp only [List.mem_singleton] at h
              subst h
              have hcq : ∀ q' ∈ rest.map Prod.fst, c.2 < q'.1 :=
                (List.pairwise_cons.mp ((List.pairwise_append.mp HP).2.1)).1
              exact hcq q hq
          obtain ⟨I1, I2, I3⟩ := ih [] (valid ++ [(⟨((run ++ [c]).headD (0, 0)).1, c.2,
            et c.2 - et ((run ++ [c]).headD (0, 0)).1⟩ : FlightSegment)]) HP' HV1' HV2' HV3'
          simp only [flatPairs] at I1 I2 I3
          refine ⟨I1, I2, fun seg hs => ?_⟩
          rcases I3 seg hs with hmem | ⟨r, hne, hinf, h1, h2⟩
          · rcases List.mem_append.mp hmem with h | h
            · exact Or.inl h
            · simp only [List.mem_singleton] at h
              subst h
              refine Or.inr ⟨run ++ [c], by simp, ?_, rfl, ?_⟩
              · refine ⟨[], rest.map Prod.fst, ?_⟩
                simp
              · rw [getLastD_concat_pair]
          · refine Or.inr ⟨r, hne, ?_, h1, h2⟩
            simp only [List.nil_append] at hinf
            have hlift := run_extend_left (run ++ [c]) hinf
            simpa using hlift

lemma transitions_pairwise (n : ℕ) (fm : ℕ → FlightMode) (t : ℕ) :
    (transitions n fm t).Pairwise (· < ·) := by
  rw [transitions]
  refine List.pairwise_filterMap.mpr ?_
  refine List.Pairwise.imp ?_ (List.pairwise_lt_range _)
  intro k k' hkk' x hx y hy
  split_ifs at hx hy with h1 h2 <;> simp_all
  omega

lemma pairUp_mem : ∀ (l : List ℕ) (p : ℕ × ℕ), p ∈ pairUp l → p.1 ∈ l ∧ p.2 ∈ l
  | [], p, hp => by simp [pairUp] at hp
  | [a], p, hp => by simp [pairUp] at hp
  | a :: b :: rest, p, hp => by
    simp only [pairUp, List.mem_cons] at hp
    rcases hp with rfl | hp
    · simp
    · have h := pairUp_mem rest p hp
      exact ⟨List.mem_cons_of_mem a (List.mem_cons_of_mem b h.1),
        List.mem_cons_of_mem a (List.mem_cons_of_mem b h.2)⟩

lemma pairUp_pairwise : ∀ l : List ℕ, l.Pairwise (· < ·) →
    (pairUp l).Pairwise (fun a b => a.2 < b.1)
  | [], _ => by simp [pairUp]
  | [a], _ => by simp [pairUp]
  | a :: b :: rest, h => by
    rw [pairUp, List.pairwise_cons]
    constructor
    · intro p hp
      exact (List.pairwise_cons.mp (List.pairwise_cons.mp h).2).1 p.1 (pairUp_mem rest p hp).1
    · exact pairUp_pairwise rest ((List.pairwise_cons.mp h).2).of_cons

lemma segment_flights_candidates_pairwise (n : ℕ) (et : ℕ → ℚ) (fm : ℕ → FlightMode)
    (start_trim : ℚ) (segs : List (ℕ × ℕ)) (gaps : List ℚ)
    (h : _segment_flights n et fm start_trim = Except.ok (segs, gaps)) :
    segs.Pairwise (fun a b => a.2 < b.1) := by
  rw [_segment_flights] at h
  by_cases h1 : n = 0
  · rw [if_pos h1] at h
    exact Except.noConfusion h
  rw [if_neg h1, _segment_flights_core] at h
  by_cases h2 : n - trimIdx n et start_trim < 2
  · rw [if_pos h2] at h
    exact Except.noConfusion h
  rw [if_neg h2] at h
  by_cases h3 : (transitions n fm (trimIdx n et start_trim)).length % 2 ≠ 0
  · rw [if_pos h3] at h
    exact Except.noConfusion h
  rw [if_neg h3] at h
  have hinj := Except.ok.inj h
  have hsegs : segs = pairUp (transitions n fm (trimIdx n et start_trim)) :=
    ((Prod.mk.injEq _ _ _ _).mp hinj).1.symm
  rw [hsegs]
  exact pairUp_pairwise _ (transitions_pairwise n fm (trimIdx n et start_trim))

/-- Claim C3: for a candidate/gap list extracted from a labeled series, the
merger's output segments are strictly ordered and non-overlapping, each spans
a contiguous run of accumulated candidates (its `start_idx` is the run's first
index and its `end_idx` the run's last), and every emitted duration equals the
elapsed-time difference of its endpoints and is at or above the threshold. -/
theorem find_flights_segments_ordered_and_valid
    (n : ℕ) (et : ℕ → ℚ) (fm : ℕ → FlightMode) (start_trim time_threshold : ℚ)
    (segs : List (ℕ × ℕ)) (gaps : List ℚ) (res : List FlightSegment)
    (hseg : _segment_flights n et fm start_trim = Except.ok (segs, gaps))
    (hres : find_flights_from_segments et time_threshold segs gaps = some res) :
    (∀ seg ∈ res, seg.duration = et seg.end_idx - et seg.start_idx ∧
      time_threshold ≤ seg.duration) ∧
    res.Chain' (fun a b => a.end_idx < b.start_idx) ∧
    (∀ seg ∈ res, ∃ r, r ≠ [] ∧ r <:+: segs ∧
      seg.start_idx = (r.headD (0, 0)).1 ∧ seg.end_idx = (r.getLastD (0, 0)).2) := by
  have hpw := segment_flights_candidates_pairwise n et fm start_trim segs gaps hseg
  rw [find_flights_from_segments] at hres
  by_cases h1 : segs.length = 0
  · rw [if_pos h1] at hres
    exact Option.noConfusion hres
  rw [if_neg h1] at hres
  by_cases h2 : ((zipLongestPairs segs gaps).foldl
      (stepMerge et time_threshold) ([], [])).2.length = 0
  · rw [if_pos h2] at hres
    exact Option.noConfusion hres
  rw [if_neg h2] at hres
  have hres' := Option.some.inj hres
  subst hres'
  have H := mergeInvariant et time_threshold (zipLongestPairs segs gaps) [] []
    (by simpa [zipLongestPairs_map_fst] using hpw)
    (by simp) (by simp) (by simp)
  simpa [zipLongestPairs_map_fst, flatPairs] using H

/-- Witness for C3: a 30-row series airborne from row 2 through row 24 yields
one candidate `(1, 24)` and one emitted segment `⟨1, 24, 23⟩`, for which all
three merger invariants hold concretely. -/
theorem find_flights_segments_ordered_and_valid_witness :
    ((⟨1, 24, 23⟩ : FlightSegment).duration
        = (fun i => (i : ℚ)) (⟨1, 24, 23⟩ : FlightSegment).end_idx
          - (fun i => (i : ℚ)) (⟨1, 24, 23⟩ : FlightSegment).start_idx ∧
      (10 : ℚ) ≤ (⟨1, 24, 23⟩ : FlightSegment).duration) ∧
    ([(⟨1, 24, 23⟩ : FlightSegment)]).Chain' (fun a b => a.end_idx < b.start_idx) ∧
    (∃ r, r ≠ [] ∧ r <:+: [((1 : ℕ), (24 : ℕ))] ∧
      (⟨1, 24, 23⟩ : FlightSegment).start_idx = (r.headD (0, 0)).1 ∧
      (⟨1, 24, 23⟩ : FlightSegment).end_idx = (r.getLastD (0, 0)).2) := by
  have H := find_flights_segments_ordered_and_valid 30 (fun i => (i : ℚ))
    (fun i => if 2 ≤ i ∧ i ≤ 24 then FlightMode.AIRBORNE else FlightMode.GROUND)
    0 10 [(1, 24)] [] [⟨1, 24, 23⟩]
    (by decide)
    (by norm_num [find_flights_from_segments, zipLongestPairs, stepMerge, List.foldl])
  exact ⟨H.1 ⟨1, 24, 23⟩ (by simp), H.2.1, H.2.2 ⟨1, 24, 23⟩ (by simp)⟩
